import Mathlib

/-!
Verification development for uv-up, an interactive Python dependency
updater operating on pyproject.toml manifests (source: src/index.tsx).

The TypeScript source is shallowly embedded: pure string functions become
Lean functions over `String`/`List Char`; the interactive `useInput`
handler becomes a step function on an explicit application-state record;
the asynchronous network boundary (`fetch` of the PyPI metadata endpoint)
becomes an explicit `NetworkOutcome` parameter; file read/write around the
constraint rewriter becomes explicit text in / text out.

JavaScript string idioms are modelled explicitly: truthiness of a string
is the test against `""`, `trim` drops whitespace at both ends,
`parseInt(v) || 0` is decimal prefix parsing collapsing NaN to 0, and the
two regular expressions of the parser are implemented with the exact
leftmost / greedy / lazy backtracking order of the JavaScript engine.
-/

namespace UvUp

/-! ## JavaScript string primitives -/

/-- Whitespace as recognised by JavaScript `String.prototype.trim`
(the characters that occur in practice in dependency declarations). -/
def jsWhitespace (c : Char) : Bool :=
  c = ' ' || c = '\t' || c = '\n' || c = '\r'

/-- `s.trim()`: drop whitespace from both ends. -/
def jsTrim (s : String) : String :=
  ⟨((s.data.dropWhile jsWhitespace).reverse.dropWhile jsWhitespace).reverse⟩

/-- The five constraint-operator characters `> = < ~ !` of the source's
character class `[>=<~!]`. -/
def operatorChar (c : Char) : Bool :=
  c = '>' || c = '=' || c = '<' || c = '~' || c = '!'

/-- `current.replace(/[>=<~!]/g, "")`: delete every operator character. -/
def stripOperators (s : String) : String :=
  ⟨s.data.filter (fun c => !operatorChar c)⟩

/-- Characters the JavaScript `.` metacharacter does not match. -/
def lineTerminator (c : Char) : Bool :=
  c = '\n' || c = '\r'

/-- Split a character list at every occurrence of `sep`, keeping empty
segments, as JavaScript `String.prototype.split` does. -/
def splitOnCharAux (sep : Char) (acc : List Char) : List Char → List (List Char)
  | [] => [acc.reverse]
  | c :: rest =>
    if c = sep then acc.reverse :: splitOnCharAux sep [] rest
    else splitOnCharAux sep (c :: acc) rest

def splitOnChar (sep : Char) (s : String) : List String :=
  (splitOnCharAux sep [] s.data).map (fun l => ⟨l⟩)

def digitsToNat : List Char → Nat
  | [] => 0
  | c :: rest => digitsToNatAux (c.toNat - '0'.toNat) rest
where
  digitsToNatAux (acc : Nat) : List Char → Nat
    | [] => acc
    | c :: rest => digitsToNatAux (acc * 10 + (c.toNat - '0'.toNat)) rest

/-- `parseInt(v) || 0`: skip leading whitespace, optional sign, then a
decimal digit run; an empty digit run (NaN) and `-0` both collapse to 0
through `|| 0`. -/
def parseIntOr0 (s : String) : Int :=
  let l := s.data.dropWhile jsWhitespace
  match l with
  | '-' :: rest =>
    let ds := rest.takeWhile Char.isDigit
    if ds.isEmpty then 0 else -(digitsToNat ds : Int)
  | '+' :: rest =>
    let ds := rest.takeWhile Char.isDigit
    if ds.isEmpty then 0 else (digitsToNat ds : Int)
  | _ =>
    let ds := l.takeWhile Char.isDigit
    if ds.isEmpty then 0 else (digitsToNat ds : Int)

/-! ## Semantic-version ordering (external collaborator)

Modelled from the spec: `Bun.semver.order` is an external library call,
not repository code.  The spec (§4.2) describes it as full semantic-version
ordering over numeric `major.minor.patch` with pre-release precedence,
throwing on a malformed version string (the source wraps the call in
`try`/`catch`).  `Option.none` is the model of the thrown exception. -/

def parseSemverComponent (s : String) : Option Nat :=
  if s.data ≠ [] && s.data.all Char.isDigit then some (digitsToNat s.data)
  else Option.none

def parseSemver (s : String) : Option (Nat × Nat × Nat × Option String) :=
  let mainAndPre := splitOnChar '-' s
  match mainAndPre with
  | [] => Option.none
  | main :: preParts =>
    let pre : Option String :=
      match preParts with
      | [] => Option.none
      | _ => some (String.intercalate "-" preParts)
    match splitOnChar '.' main with
    | [a, b, c] =>
      match parseSemverComponent a, parseSemverComponent b, parseSemverComponent c with
      | some x, some y, some z =>
        match pre with
        | some p => if p = "" then Option.none else some (x, y, z, some p)
        | Option.none => some (x, y, z, Option.none)
      | _, _, _ => Option.none
    | _ => Option.none

def semverCompare (a b : Nat × Nat × Nat × Option String) : Ordering :=
  match compare a.1 b.1 with
  | Ordering.lt => Ordering.lt
  | Ordering.gt => Ordering.gt
  | Ordering.eq =>
    match compare a.2.1 b.2.1 with
    | Ordering.lt => Ordering.lt
    | Ordering.gt => Ordering.gt
    | Ordering.eq =>
      match compare a.2.2.1 b.2.2.1 with
      | Ordering.lt => Ordering.lt
      | Ordering.gt => Ordering.gt
      | Ordering.eq =>
        match a.2.2.2, b.2.2.2 with
        | Option.none, Option.none => Ordering.eq
        | Option.none, some _ => Ordering.gt
        | some _, Option.none => Ordering.lt
        | some p, some q => compare p q

/-- `Bun.semver.order a b`; `Option.none` models the exception raised on a
malformed version string. -/
def semverOrder (a b : String) : Option Ordering :=
  match parseSemver a, parseSemver b with
  | some x, some y => some (semverCompare x y)
  | _, _ => Option.none

/-! ## Version Classifier (src/index.tsx lines 65-96) -/

/-- `compareVersions(current, latest)`: true when `latest` is strictly
newer.  Empty strings are falsy, so either being empty yields `false`;
the thrown-exception path of `Bun.semver.order` falls back to plain
string inequality. -/
def compareVersions (current latest : String) : Bool :=
  if current = "" || latest = "" then false
  else
    let cleanCurrent := jsTrim (stripOperators current)
    match semverOrder cleanCurrent latest with
    | some o => o = Ordering.lt
    | Option.none => cleanCurrent ≠ latest

inductive VersionChangeType where
  | major
  | minor
  | patch
  | none
deriving DecidableEq

def versionComponents (s : String) : List Int :=
  (splitOnChar '.' s).map parseIntOr0

def cleanVersion (s : String) : String := jsTrim (stripOperators s)

def jsVersionMajor (s : String) : Int := (versionComponents s).getD 0 0

def jsVersionMinor (s : String) : Int := (versionComponents s).getD 1 0

/-- `getVersionChangeType(current, latest)`: the destructuring
`[major = 0, minor = 0] = clean.split(".").map(v => parseInt(v) || 0)`
is `jsVersionMajor`/`jsVersionMinor`; the `try`/`catch` around the body
only ever catches the `Bun.semver.order` exception (nothing before it can
throw), which yields the `minor` fallback. -/
def getVersionChangeType (current latest : String) : VersionChangeType :=
  let cleanCurrent := cleanVersion current
  let currentMajor := jsVersionMajor cleanCurrent
  let currentMinor := jsVersionMinor cleanCurrent
  let latestMajor := jsVersionMajor latest
  let latestMinor := jsVersionMinor latest
  if latestMajor > currentMajor then VersionChangeType.major
  else if latestMinor > currentMinor then VersionChangeType.minor
  else
    match semverOrder cleanCurrent latest with
    | some Ordering.lt => VersionChangeType.patch
    | some _ => VersionChangeType.none
    | Option.none => VersionChangeType.minor

/-! ## Specifier Parser (src/index.tsx lines 244-266)

`DEPENDENCY_REGEX = /^([^>=<~![]+)(\[.*?\])?([>=<~!].+)?$/` and
`OPERATOR_REGEX = /^([>=<~!]+)(.+)$/`, implemented with the JavaScript
engine's backtracking order: group 1 is greedy (longest prefix first),
the optional bracket group is tried present-first with a lazy interior
(nearest `]` first), group 3 is greedy, and `.` never matches a line
terminator. -/

/-- Characters that end the package-name run: the class `[^>=<~![]`. -/
def nameStopChar (c : Char) : Bool :=
  c = '>' || c = '=' || c = '<' || c = '~' || c = '!' || c = '['

/-- Whether `([>=<~!].+)$` matches the whole remainder: an operator-class
character followed by at least one character, none of them a line
terminator (`.` cannot match those). -/
def constraintRunOk : List Char → Bool
  | c :: c2 :: rest => operatorChar c && (c2 :: rest).all (fun d => !lineTerminator d)
  | _ => false

/-- Lazy `\[.*?\]` candidates: extend the bracket to each successive `]`
(nearest first), succeeding as soon as the rest of the pattern matches the
remainder.  `acc` holds the bracket text matched so far. -/
def tryBracket (g1 acc : List Char) : List Char → Option (List Char × List Char × List Char)
  | [] => Option.none
  | c :: rest =>
    if c = ']' then
      let b := acc ++ [']']
      if rest.isEmpty then some (g1, b, [])
      else if constraintRunOk rest then some (g1, b, rest)
      else tryBracket g1 b rest
    else if lineTerminator c then Option.none
    else tryBracket g1 (acc ++ [c]) rest

/-- Continuation after the name group: optional bracket group (present
tried first), then optional constraint group, then end of input. -/
def tryAfterName (g1 r : List Char) : Option (List Char × List Char × List Char) :=
  let viaBracket :=
    match r with
    | '[' :: rTail => tryBracket g1 ['['] rTail
    | _ => Option.none
  match viaBracket with
  | some res => some res
  | Option.none =>
    if r.isEmpty then some (g1, [], [])
    else if constraintRunOk r then some (g1, [], r)
    else Option.none

/-- Greedy name group: try prefixes of the maximal `[^>=<~![]` run from
longest to shortest. -/
def tryNamePrefix (s : List Char) : Nat → Option (List Char × List Char × List Char)
  | 0 => Option.none
  | Nat.succ i =>
    match tryAfterName (s.take (i + 1)) (s.drop (i + 1)) with
    | some res => some res
    | Option.none => tryNamePrefix s i

/-- `baseMatch.match(DEPENDENCY_REGEX)`: the three capture groups (name,
extras, constraint), with an absent optional group reported as `""` as the
source's `|| ""` does. -/
def dependencyMatch (s : String) : Option (String × String × String) :=
  let l := s.data
  let runLen := (l.takeWhile (fun c => !nameStopChar c)).length
  match tryNamePrefix l runLen with
  | some (a, b, c) => some (⟨a⟩, ⟨b⟩, ⟨c⟩)
  | Option.none => Option.none

/-- Greedy operator run of `OPERATOR_REGEX`, longest first; `.+` must then
cover the whole (nonempty, line-terminator-free) remainder. -/
def opSplit (s : List Char) : Nat → Option (List Char × List Char)
  | 0 => Option.none
  | Nat.succ i =>
    let rest := s.drop (i + 1)
    if !rest.isEmpty && rest.all (fun d => !lineTerminator d) then
      some (s.take (i + 1), rest)
    else opSplit s i

/-- `constraintPart.match(OPERATOR_REGEX)`: the operator run and the
version text. -/
def operatorMatch (s : String) : Option (String × String) :=
  let l := s.data
  let runLen := (l.takeWhile operatorChar).length
  match opSplit l runLen with
  | some (a, b) => some (⟨a⟩, ⟨b⟩)
  | Option.none => Option.none

structure Dependency where
  name : String
  extras : String
  currentVersion : String
  originalConstraint : String
  constraintOperator : String
  /-- `Option.none` models `undefined` (not yet resolved); `some
  Option.none` models `null` (resolution failed / not found). -/
  latestVersion : Option (Option String)
  selected : Bool
  hasUpdate : Bool
  loading : Bool
deriving DecidableEq

structure ProjectInfo where
  name : String
  dependencies : List Dependency
  filePath : String
deriving DecidableEq

/-- `dep.split(";")[0] || dep` followed by the `DEPENDENCY_REGEX` match:
the shared intermediate of `parseDependency`. -/
def parsedGroups (dep : String) : Option (String × String × String) :=
  let firstSegment : String := ⟨dep.data.takeWhile (fun c => c ≠ ';')⟩
  let baseMatch := if firstSegment = "" then dep else firstSegment
  dependencyMatch baseMatch

/-- The constraint text (group 3 of the match, `""` when absent). -/
def constraintPartOf (dep : String) : String :=
  match parsedGroups dep with
  | some (_, _, g3) => g3
  | Option.none => ""

/-- `parseDependency(dep)`: always returns a specifier; `||` fallbacks
give `dep` for a missing/blank name, `">="` for a missing operator and
`"0.0.0"` for a missing/blank version. -/
def parseDependency (dep : String) : Dependency :=
  let m := parsedGroups dep
  let name :=
    match m with
    | some (g1, _, _) => let t := jsTrim g1; if t = "" then dep else t
    | Option.none => dep
  let extras :=
    match m with
    | some (_, g2, _) => g2
    | Option.none => ""
  let constraintPart :=
    match m with
    | some (_, _, g3) => g3
    | Option.none => ""
  let om := operatorMatch constraintPart
  let operator :=
    match om with
    | some (op, _) => if op = "" then ">=" else op
    | Option.none => ">="
  let version :=
    match om with
    | some (_, v) => let t := jsTrim v; if t = "" then "0.0.0" else t
    | Option.none => "0.0.0"
  { name := name
    extras := extras
    currentVersion := version
    originalConstraint := dep
    constraintOperator := operator
    latestVersion := Option.none
    selected := false
    hasUpdate := false
    loading := true }

/-! ## Version Resolver (src/index.tsx lines 49-63) -/

/-- The observable behaviour of the external HTTP boundary for one
resolution call: either the fetch / JSON decode throws, or a response
arrives with a success flag and an optional `info.version` field
(`Option.none` when the payload lacks the field). -/
inductive NetworkOutcome where
  | throws
  | response (ok : Bool) (version : Option String)
deriving DecidableEq

/-- `fetchLatestVersion(packageName)`: `Option.none` is the returned
`null`.  A blank name short-circuits before any network call; a thrown
fetch, a non-success status and a missing (or empty, via `|| null`)
version field all collapse to `null`. -/
def fetchLatestVersion (packageName : String) (net : NetworkOutcome) : Option String :=
  if jsTrim packageName = "" then Option.none
  else
    match net with
    | NetworkOutcome.throws => Option.none
    | NetworkOutcome.response ok version =>
      if !ok then Option.none
      else
        match version with
        | some v => if v = "" then Option.none else some v
        | Option.none => Option.none

/-! ## Resolution Coordinator (src/index.tsx lines 209-233) -/

/-- `hasUpdate` as computed at resolution completion:
`latestVersion ? compareVersions(dep.currentVersion, latestVersion) : false`
(an empty string is falsy). -/
def hasUpdateAfter (currentVersion : String) (latestVersion : Option String) : Bool :=
  match latestVersion with
  | some v => if v = "" then false else compareVersions currentVersion v
  | Option.none => false

/-- The per-dependency state update applied when its resolution settles
(`{ ...d, latestVersion, hasUpdate, loading: false }`). -/
def resolveUpdate (d : Dependency) (result : Option String) : Dependency :=
  { d with
    latestVersion := some result
    hasUpdate := hasUpdateAfter d.currentVersion result
    loading := false }

/-- `fetchVersionsForProject` maps `fetchLatestVersion(dep.name)` over
every dependency of the project: the names a resolution call is issued
for. -/
def resolutionRequests (deps : List Dependency) : List String :=
  deps.map (fun d => d.name)

/-! ## Constraint Rewriter (src/index.tsx lines 367-434) -/

def DEFAULT_CONSTRAINT_OPERATOR : String := "~="

/-- Operator choice of the rewriter: `==` and `~=` are preserved, every
other original operator falls back to the compatible-release default. -/
def chooseOperator (op : String) : String :=
  if op = "==" then "=="
  else if op = "~=" then "~="
  else DEFAULT_CONSTRAINT_OPERATOR

/-- `originalConstraint.match(/;(.+)$/)`: search for the first `;` whose
remainder is nonempty, reaches the end of the string, and contains no line
terminator (`.` cannot match those); the search resumes at the next
position on failure. -/
def envMarkerSearch : List Char → Option (List Char)
  | [] => Option.none
  | c :: rest =>
    if c = ';' && !rest.isEmpty && rest.all (fun d => !lineTerminator d) then some rest
    else envMarkerSearch rest

/-- The `envMarker` string of the rewriter: `";" + match[1]` when the
marker regex matched, `""` otherwise. -/
def envMarkerOf (orig : String) : String :=
  match envMarkerSearch orig.data with
  | some rest => ⟨';' :: rest⟩
  | Option.none => ""

def quoteStr (s : String) : String := "\"" ++ s ++ "\""

/-- The replacement text
`"${dep.name}${dep.extras}${newOperator}${dep.latestVersion}${envMarker}"`
including its surrounding quotes. -/
def newConstraintFor (d : Dependency) (v : String) : String :=
  quoteStr (d.name ++ d.extras ++ chooseOperator d.constraintOperator ++ v
    ++ envMarkerOf d.originalConstraint)

/-- Occurrence test for a pattern inside a character list. -/
def occursSub (pat : List Char) : List Char → Bool
  | [] => pat.isEmpty
  | c :: rest => pat.isPrefixOf (c :: rest) || occursSub pat rest

/-- Left-to-right, non-overlapping replacement of every occurrence, as
`String.prototype.replace` with a `g`-flagged, fully escaped (hence
literal) pattern performs.  The fuel is the input length; each step
consumes at least one character.  The pattern here is always quoted text,
hence nonempty. -/
def replaceAllAux (pat repl : List Char) : Nat → List Char → List Char
  | _, [] => []
  | 0, l => l
  | Nat.succ fuel, c :: rest =>
    if !pat.isEmpty && pat.isPrefixOf (c :: rest) then
      repl ++ replaceAllAux pat repl fuel (List.drop (pat.length - 1) rest)
    else c :: replaceAllAux pat repl fuel rest

def replaceAll (s pat repl : String) : String :=
  ⟨replaceAllAux pat.data repl.data s.data.length s.data⟩

/-- The truthiness test `dep.latestVersion && dep.hasUpdate` guarding the
per-dependency replacement (`undefined`, `null` and `""` are falsy). -/
def eligibleForRewrite (d : Dependency) : Bool :=
  match d.latestVersion with
  | some (some v) => !(v = "") && d.hasUpdate
  | _ => false

/-- One iteration of the rewrite loop: replace every occurrence of the
quoted original constraint when the dependency is eligible. -/
def applyDepUpdate (content : String) (d : Dependency) : String :=
  match d.latestVersion with
  | some (some v) =>
    if !(v = "") && d.hasUpdate then
      replaceAll content (quoteStr d.originalConstraint) (newConstraintFor d v)
    else content
  | _ => content

/-- The full text rewrite over the selected dependencies of the project. -/
def updateDependenciesText (content : String) (deps : List Dependency) : String :=
  (deps.filter (fun d => d.selected)).foldl applyDepUpdate content

/-- The observable outcome of `updateDependencies` once a project exists:
either the early return to dependency mode (empty selection, no file
I/O), or a write of the new content together with the dependency count
printed in the success message. -/
inductive UpdateOutcome where
  | backToDependencies
  | wrote (newContent : String) (reportedCount : Nat)
deriving DecidableEq

def updateDependenciesRun (content : String) (deps : List Dependency) : UpdateOutcome :=
  let selectedDeps := deps.filter (fun d => d.selected)
  if selectedDeps.length = 0 then UpdateOutcome.backToDependencies
  else UpdateOutcome.wrote (selectedDeps.foldl applyDepUpdate content) selectedDeps.length

/-! ## Selection State Machine (src/index.tsx lines 189-365) -/

inductive AppMode where
  | project
  | dependencies
  | confirm
deriving DecidableEq

/-- The logical input events dispatched by the `useInput` handler.
`other` stands for any keystroke matching none of the handled cases. -/
inductive InputEvent where
  | upArrow
  | downArrow
  | enter
  | space
  | leftArrow
  | quitKey
  | charY
  | charN
  | other
deriving DecidableEq

/-- The component state: cursor indices are JavaScript numbers, hence
`Int` (the clamping arithmetic can produce `-1`). `terminated` and
`fileWritten` record the calls to `exit()` and `Bun.write`. -/
structure AppState where
  projects : List ProjectInfo
  selectedProjectIndex : Int
  selectedDepIndex : Int
  mode : AppMode
  terminated : Bool
  fileWritten : Bool
deriving DecidableEq

/-- JavaScript array indexing: negative or out-of-range indices give
`undefined`. -/
def listGetInt (l : List α) (i : Int) : Option α :=
  if i < 0 then Option.none else l.get? i.toNat

def listSetInt (l : List α) (i : Int) (a : α) : List α :=
  if i < 0 then l else l.set i.toNat a

/-- `Math.min(selectedProjectIndex, Math.max(0, projects.length - 1))`. -/
def safeSelectedProjectIndex (s : AppState) : Int :=
  min s.selectedProjectIndex (max 0 ((s.projects.length : Int) - 1))

/-- `projects[safeSelectedProjectIndex]`. -/
def currentProject (s : AppState) : Option ProjectInfo :=
  listGetInt s.projects (safeSelectedProjectIndex s)

/-- `Math.min(selectedDepIndex, Math.max(0, deps.length - 1))`, or 0 with
no current project. -/
def safeSelectedDepIndex (s : AppState) : Int :=
  match currentProject s with
  | some p => min s.selectedDepIndex (max 0 ((p.dependencies.length : Int) - 1))
  | Option.none => 0

inductive NavDirection where
  | up
  | down
deriving DecidableEq

/-- The cursor update of `handleNavigation` for a collection of the given
length: `Math.max(0, prev - 1)` going up, `Math.min(length - 1, prev + 1)`
going down. -/
def navStep (len : Nat) (cursor : Int) : NavDirection → Int
  | NavDirection.up => max 0 (cursor - 1)
  | NavDirection.down => min ((len : Int) - 1) (cursor + 1)

def handleNavigation (s : AppState) (d : NavDirection) : AppState :=
  if s.mode = AppMode.project then
    { s with selectedProjectIndex := navStep s.projects.length s.selectedProjectIndex d }
  else if s.mode = AppMode.dependencies then
    match currentProject s with
    | some p =>
      { s with selectedDepIndex := navStep p.dependencies.length s.selectedDepIndex d }
    | Option.none => s
  else s

/-- A cursor after a sequence of up/down events on one fixed collection. -/
def navRun (len : Nat) (cursor : Int) (events : List NavDirection) : Int :=
  events.foldl (navStep len) cursor

/-- `toggleDependencySelection`: flip `selected` on the dependency at the
safe indices when project and dependency both exist. -/
def toggleDependencySelection (s : AppState) : AppState :=
  match currentProject s with
  | Option.none => s
  | some p =>
    match listGetInt p.dependencies (safeSelectedDepIndex s) with
    | Option.none => s
    | some d =>
      let updated := { p with
        dependencies :=
          listSetInt p.dependencies (safeSelectedDepIndex s) { d with selected := !d.selected } }
      { s with projects := listSetInt s.projects (safeSelectedProjectIndex s) updated }

/-- The state effect of `updateDependencies`: nothing without a project;
back to dependency mode on an empty selection; otherwise the manifest is
written and `exit()` is called (the failure branch also exits). -/
def updateDependenciesStep (s : AppState) : AppState :=
  match currentProject s with
  | Option.none => s
  | some p =>
    if (p.dependencies.filter (fun d => d.selected)).length = 0 then
      { s with mode := AppMode.dependencies }
    else { s with terminated := true, fileWritten := true }

/-- One dispatch of the `useInput` handler, in the source's branch
order.  After `exit()` no further input is processed. -/
def step (s : AppState) (e : InputEvent) : AppState :=
  if s.terminated then s
  else
    match e with
    | InputEvent.quitKey => { s with terminated := true }
    | InputEvent.upArrow => handleNavigation s NavDirection.up
    | InputEvent.downArrow => handleNavigation s NavDirection.down
    | InputEvent.enter =>
      if s.mode = AppMode.project then
        match currentProject s with
        | some _ => { s with mode := AppMode.dependencies, selectedDepIndex := 0 }
        | Option.none => s
      else if s.mode = AppMode.dependencies then { s with mode := AppMode.confirm }
      else s
    | InputEvent.space =>
      if s.mode = AppMode.dependencies then toggleDependencySelection s else s
    | InputEvent.leftArrow =>
      { s with
        mode := if s.mode = AppMode.dependencies then AppMode.project else AppMode.dependencies }
    | InputEvent.charY =>
      if s.mode = AppMode.confirm then updateDependenciesStep s else s
    | InputEvent.charN =>
      if s.mode = AppMode.confirm then { s with mode := AppMode.dependencies } else s
    | InputEvent.other => s

/-! ## Helper lemmas -/

lemma operatorMatch_empty : operatorMatch "" = Option.none := rfl

lemma replaceAllAux_of_not_occurs (pat repl : List Char) :
    ∀ (l : List Char) (fuel : Nat), occursSub pat l = false →
      replaceAllAux pat repl fuel l = l := by
  intro l
  induction l with
  | nil => intro fuel _; cases fuel <;> rfl
  | cons c rest ih =>
    intro fuel h
    simp only [occursSub, Bool.or_eq_false_iff] at h
    cases fuel with
    | zero => rfl
    | succ n => simp [replaceAllAux, h.1, ih n h.2]

lemma replaceAll_of_not_occurs (s pat repl : String)
    (h : occursSub pat.data s.data = false) : replaceAll s pat repl = s := by
  unfold replaceAll
  rw [replaceAllAux_of_not_occurs pat.data repl.data s.data s.data.length h]

lemma applyDepUpdate_of_not_eligible (content : String) (d : Dependency)
    (h : eligibleForRewrite d = false) : applyDepUpdate content d = content := by
  cases hl : d.latestVersion with
  | none => simp [applyDepUpdate, hl]
  | some lv =>
    cases lv with
    | none => simp [applyDepUpdate, hl]
    | some v =>
      unfold eligibleForRewrite at h
      rw [hl] at h
      simp only at h
      simp [applyDepUpdate, hl, h]

lemma foldl_applyDepUpdate_id :
    ∀ (l : List Dependency) (content : String),
      (∀ d ∈ l, eligibleForRewrite d = false) →
      l.foldl applyDepUpdate content = content := by
  intro l
  induction l with
  | nil => intro content _; rfl
  | cons d rest ih =>
    intro content h
    rw [List.foldl_cons, applyDepUpdate_of_not_eligible content d (h d (by simp))]
    exact ih content (fun x hx => h x (by simp [hx]))

lemma envMarkerSearch_no_semicolon :
    ∀ l : List Char, (∀ c ∈ l, c ≠ ';') → envMarkerSearch l = Option.none := by
  intro l
  induction l with
  | nil => intro _; rfl
  | cons c rest ih =>
    intro h
    have hc : c ≠ ';' := h c (by simp)
    simp only [envMarkerSearch, hc]
    simp [hc]
    exact ih (fun x hx => h x (by simp [hx]))

lemma envMarkerSearch_first :
    ∀ (pre rest : List Char), (∀ c ∈ pre, c ≠ ';') → rest ≠ [] →
      (∀ c ∈ rest, lineTerminator c = false) →
      envMarkerSearch (pre ++ ';' :: rest) = some rest := by
  intro pre
  induction pre with
  | nil =>
    intro rest _ hne hlt
    have hre : rest.isEmpty = false := by
      cases rest with
      | nil => exact absurd rfl hne
      | cons a l => rfl
    have hall : rest.all (fun d => !lineTerminator d) = true := by
      rw [List.all_eq_true]
      intro x hx
      simp [hlt x hx]
    simp [envMarkerSearch, hre, hall]
  | cons c pre ih =>
    intro rest h hne hlt
    have hc : c ≠ ';' := h c (by simp)
    simp only [List.cons_append, envMarkerSearch]
    simp [hc]
    exact ih rest (fun x hx => h x (by simp [hx])) hne hlt

lemma navStep_bounds (len : Nat) (c : Int) (d : NavDirection)
    (hlen : 1 ≤ len) (h0 : 0 ≤ c) (h1 : c ≤ (len : Int) - 1) :
    0 ≤ navStep len c d ∧ navStep len c d ≤ (len : Int) - 1 := by
  have hl : (1 : Int) ≤ (len : Int) := by exact_mod_cast hlen
  cases d with
  | up => exact ⟨le_max_left _ _, max_le (by omega) (by omega)⟩
  | down => exact ⟨le_min (by omega) (by omega), min_le_left _ _⟩

lemma navRun_bounds (len : Nat) (hlen : 1 ≤ len) :
    ∀ (events : List NavDirection) (c : Int), 0 ≤ c → c ≤ (len : Int) - 1 →
      0 ≤ navRun len c events ∧ navRun len c events ≤ (len : Int) - 1 := by
  intro events
  induction events with
  | nil => intro c h0 h1; exact ⟨h0, h1⟩
  | cons e rest ih =>
    intro c h0 h1
    have hb := navStep_bounds len c e hlen h0 h1
    simpa [navRun, List.foldl_cons] using ih (navStep len c e) hb.1 hb.2

/-! ## Concrete fixtures used by witnesses and counterexamples -/

def urlDeclaration : String := "pkg @ https://example.com/pkg.git"

def eqDep : Dependency :=
  { name := "requests", extras := "", currentVersion := "1.0.0",
    originalConstraint := "requests==1.0.0", constraintOperator := "==",
    latestVersion := some (some "1.1.0"), selected := true, hasUpdate := true,
    loading := false }

def extrasDep : Dependency :=
  { name := "pkg", extras := "[a]", currentVersion := "1.0.0",
    originalConstraint := "pkg[a]>=1.0.0", constraintOperator := ">=",
    latestVersion := some (some "2.0.0"), selected := true, hasUpdate := true,
    loading := false }

def extrasManifest : String := "dependencies = [\"pkg[a]>=1.0.0\", \"pkg[b]>=1.0.0\"]"

def extrasManifestExpected : String := "dependencies = [\"pkg[a]~=2.0.0\", \"pkg[b]>=1.0.0\"]"

def dupSelected : Dependency :=
  { name := "a", extras := "", currentVersion := "1.0.0",
    originalConstraint := "a==1.0.0", constraintOperator := "==",
    latestVersion := some (some "1.1.0"), selected := true, hasUpdate := true,
    loading := false }

def dupUnselected : Dependency :=
  { dupSelected with selected := false, latestVersion := some Option.none, hasUpdate := false }

def dupManifest : String := "[\"a==1.0.0\", \"a==1.0.0\"]"

def selectedNotFound : Dependency :=
  { dupSelected with latestVersion := some Option.none, hasUpdate := false }

def emptyProjectState : AppState :=
  { projects := [], selectedProjectIndex := 0, selectedDepIndex := 0,
    mode := AppMode.project, terminated := false, fileWritten := false }

def sampleProject : ProjectInfo :=
  { name := "demo", dependencies := [parseDependency "requests==1.0.0"],
    filePath := "pyproject.toml" }

def oneProjectState : AppState :=
  { projects := [sampleProject], selectedProjectIndex := 0, selectedDepIndex := 0,
    mode := AppMode.project, terminated := false, fileWritten := false }

/-! ## Claim theorems -/

/-- C1: for every selected dependency with a non-null (and nonempty, per
truthiness) latest version and `hasUpdate` true, the rewriter preserves
an original operator of `==` or `~=` verbatim, substitutes `~=` for any
other original operator, and composes the replacement declaration as
`name + extras + operator + latestVersion`, followed by `";" + marker`
exactly when the original declaration had an environment marker (text
after a `;`), the marker being the remainder after the first such `;`. -/
theorem rewriter_operator_choice_and_composition :
    ∀ (d : Dependency) (v : String) (content : String),
      d.latestVersion = some (some v) → v ≠ "" → d.hasUpdate = true →
      ((d.constraintOperator = "==" ∨ d.constraintOperator = "~=") →
        chooseOperator d.constraintOperator = d.constraintOperator) ∧
      (d.constraintOperator ≠ "==" → d.constraintOperator ≠ "~=" →
        chooseOperator d.constraintOperator = "~=") ∧
      applyDepUpdate content d =
        replaceAll content (quoteStr d.originalConstraint)
          (quoteStr (d.name ++ d.extras ++ chooseOperator d.constraintOperator ++ v
            ++ envMarkerOf d.originalConstraint)) ∧
      (∀ pre rest : List Char,
        d.originalConstraint.data = pre ++ ';' :: rest →
        (∀ c ∈ pre, c ≠ ';') → rest ≠ [] → (∀ c ∈ rest, lineTerminator c = false) →
        envMarkerOf d.originalConstraint = ⟨';' :: rest⟩) ∧
      ((∀ c ∈ d.originalConstraint.data, c ≠ ';') →
        envMarkerOf d.originalConstraint = "") := by
  intro d v content hl hv hu
  refine ⟨?_, ?_, ?_, ?_, ?_⟩
  · rintro (h | h) <;> simp [chooseOperator, h, DEFAULT_CONSTRAINT_OPERATOR]
  · intro h1 h2
    simp [chooseOperator, h1, h2, DEFAULT_CONSTRAINT_OPERATOR]
  · unfold applyDepUpdate
    rw [hl]
    simp [hv, hu, newConstraintFor]
  · intro pre rest heq hpre hne hlt
    unfold envMarkerOf
    rw [heq, envMarkerSearch_first pre rest hpre hne hlt]
  · intro h
    unfold envMarkerOf
    rw [envMarkerSearch_no_semicolon _ h]

theorem rewriter_operator_choice_and_composition_witness :
    chooseOperator eqDep.constraintOperator = "==" ∧
    chooseOperator extrasDep.constraintOperator = "~=" :=
  ⟨(rewriter_operator_choice_and_composition eqDep "1.1.0" "" rfl (by decide) rfl).1
      (Or.inl rfl),
   (rewriter_operator_choice_and_composition extrasDep "2.0.0" "" rfl (by decide) rfl).2.1
      (by decide) (by decide)⟩

/-- C2: the code has no detection of non-registry declarations.  A direct
URL reference matches the name grammar (the whole text becomes the
package name), is parsed exactly like a registry dependency (operator
`>=`, version `0.0.0`, `loading` true, no marking of any kind), the
per-project resolution routine issues a version-resolution request for
it, and the resolver queries the network for it rather than skipping. -/
theorem url_dependency_parsed_as_registry_and_resolved :
    (parseDependency urlDeclaration).name = urlDeclaration ∧
    occursSub "://".data urlDeclaration.data = true ∧
    (parseDependency urlDeclaration).constraintOperator = ">=" ∧
    (parseDependency urlDeclaration).currentVersion = "0.0.0" ∧
    (parseDependency urlDeclaration).loading = true ∧
    resolutionRequests [parseDependency urlDeclaration] = [urlDeclaration] ∧
    fetchLatestVersion urlDeclaration (NetworkOutcome.response true (some "9.9.9"))
      = some "9.9.9" := by
  decide

/-- C4 counterexample: `"abc"` is a malformed version string, yet the
classifier returns `major` for it against latest `"1.0.0"` (its parsed
major component collapses to 0, so the major branch fires before the
ordering call that would throw), refuting "on a malformed version string
it returns minor". -/
theorem classify_malformed_current_returns_major :
    parseSemver "abc" = Option.none ∧
    getVersionChangeType "abc" "1.0.0" = VersionChangeType.major ∧
    VersionChangeType.major ≠ VersionChangeType.minor := by
  decide

/-- C4 amended: the rule is evaluated in order (major-component increase,
then minor-component increase, then strict ordering for patch, else
none); the function never throws, and the `minor` fallback for a
malformed version string applies exactly when the ordering comparison is
reached (no component increase) and the semver parse fails — a malformed
current whose components parse as 0 can still yield major or minor.  The
four concrete classifications of the claim hold. -/
theorem classify_rule_order_and_fallback :
    (∀ current latest : String,
      (jsVersionMajor latest > jsVersionMajor (cleanVersion current) →
        getVersionChangeType current latest = VersionChangeType.major) ∧
      (jsVersionMajor latest ≤ jsVersionMajor (cleanVersion current) →
        jsVersionMinor latest > jsVersionMinor (cleanVersion current) →
        getVersionChangeType current latest = VersionChangeType.minor) ∧
      (jsVersionMajor latest ≤ jsVersionMajor (cleanVersion current) →
        jsVersionMinor latest ≤ jsVersionMinor (cleanVersion current) →
        semverOrder (cleanVersion current) latest = some Ordering.lt →
        getVersionChangeType current latest = VersionChangeType.patch) ∧
      (∀ o : Ordering, jsVersionMajor latest ≤ jsVersionMajor (cleanVersion current) →
        jsVersionMinor latest ≤ jsVersionMinor (cleanVersion current) →
        semverOrder (cleanVersion current) latest = some o → o ≠ Ordering.lt →
        getVersionChangeType current latest = VersionChangeType.none) ∧
      (jsVersionMajor latest ≤ jsVersionMajor (cleanVersion current) →
        jsVersionMinor latest ≤ jsVersionMinor (cleanVersion current) →
        semverOrder (cleanVersion current) latest = Option.none →
        getVersionChangeType current latest = VersionChangeType.minor)) ∧
    getVersionChangeType "1.2.3" "2.0.0" = VersionChangeType.major ∧
    getVersionChangeType "1.2.3" "1.3.0" = VersionChangeType.minor ∧
    getVersionChangeType "1.2.3" "1.2.9" = VersionChangeType.patch ∧
    getVersionChangeType "1.2.3" "1.2.3" = VersionChangeType.none := by
  refine ⟨?_, by decide, by decide, by decide, by decide⟩
  intro current latest
  refine ⟨?_, ?_, ?_, ?_, ?_⟩
  · intro h
    simp only [getVersionChangeType]
    rw [if_pos h]
  · intro h1 h2
    simp only [getVersionChangeType]
    rw [if_neg (not_lt.mpr h1), if_pos h2]
  · intro h1 h2 h3
    simp only [getVersionChangeType]
    rw [if_neg (not_lt.mpr h1), if_neg (not_lt.mpr h2), h3]
  · intro o h1 h2 h3 h4
    simp only [getVersionChangeType]
    rw [if_neg (not_lt.mpr h1), if_neg (not_lt.mpr h2), h3]
    cases o with
    | lt => exact absurd rfl h4
    | eq => rfl
    | gt => rfl
  · intro h1 h2 h3
    simp only [getVersionChangeType]
    rw [if_neg (not_lt.mpr h1), if_neg (not_lt.mpr h2), h3]

theorem classify_rule_order_and_fallback_witness :
    getVersionChangeType "1.9.9" "3.0.0" = VersionChangeType.major :=
  (classify_rule_order_and_fallback.1 "1.9.9" "3.0.0").1 (by decide)

/-- C5: `parseDependency` is a total function that always returns a
best-effort specifier retaining the raw declaration, and whenever the
match yields no constraint text (no operator/version in the
declaration), the specifier defaults to operator `>=` and version
`0.0.0`. -/
theorem parse_total_with_defaults :
    ∀ dep : String,
      (parseDependency dep).originalConstraint = dep ∧
      (constraintPartOf dep = "" →
        (parseDependency dep).constraintOperator = ">=" ∧
        (parseDependency dep).currentVersion = "0.0.0") := by
  intro dep
  refine ⟨rfl, ?_⟩
  intro h
  unfold constraintPartOf at h
  unfold parseDependency
  cases hm : parsedGroups dep with
  | none => simp [hm, operatorMatch_empty]
  | some g =>
    obtain ⟨g1, g2, g3⟩ := g
    rw [hm] at h
    simp only at h
    subst h
    simp [hm, operatorMatch_empty]

theorem parse_total_with_defaults_witness :
    (parseDependency "requests").constraintOperator = ">=" ∧
    (parseDependency "requests").currentVersion = "0.0.0" :=
  (parse_total_with_defaults "requests").2 (by decide)

/-- C6: after a resolution settles, `hasUpdate` is true exactly when the
stored latest version is an actual string (not the `null` of a failed
resolution) that `compareVersions` — the Version Classifier's
strictly-greater ordering, with its documented fallback — accepts
against the current version; and `latestVersion` is then no longer the
`undefined` of an unresolved dependency. -/
theorem hasUpdate_iff_latest_strictly_greater :
    ∀ (d : Dependency) (result : Option String),
      ((resolveUpdate d result).hasUpdate = true ↔
        ∃ v, result = some v ∧ compareVersions d.currentVersion v = true) ∧
      (resolveUpdate d result).latestVersion = some result := by
  intro d result
  refine ⟨?_, rfl⟩
  cases result with
  | none => simp [resolveUpdate, hasUpdateAfter]
  | some v =>
    by_cases hv : v = ""
    · subst hv
      simp [resolveUpdate, hasUpdateAfter, compareVersions]
    · simp [resolveUpdate, hasUpdateAfter, hv]

theorem hasUpdate_iff_latest_strictly_greater_witness :
    (resolveUpdate eqDep (some "2.0.0")).hasUpdate = true :=
  (hasUpdate_iff_latest_strictly_greater eqDep (some "2.0.0")).1.mpr
    ⟨"2.0.0", rfl, by decide⟩

/-- C8: the resolver returns `null` for a blank package name, on a thrown
network call, on a non-success response and on a payload without a
version field; it never raises (it is a total function into
`Option String`); and the `null` stored by a failed resolution
(`some Option.none`) is a different value from the `undefined`
(`Option.none`) every freshly parsed dependency starts with. -/
theorem resolver_failure_paths_return_null :
    ∀ (name : String) (net : NetworkOutcome),
      (jsTrim name = "" → fetchLatestVersion name net = Option.none) ∧
      (net = NetworkOutcome.throws → fetchLatestVersion name net = Option.none) ∧
      (∀ v, net = NetworkOutcome.response false v →
        fetchLatestVersion name net = Option.none) ∧
      (∀ ok, net = NetworkOutcome.response ok Option.none →
        fetchLatestVersion name net = Option.none) ∧
      (∀ raw : String,
        (parseDependency raw).latestVersion = (Option.none : Option (Option String))) ∧
      (∀ d : Dependency,
        (resolveUpdate d Option.none).latestVersion = some Option.none ∧
        some (Option.none : Option String) ≠ (Option.none : Option (Option String))) := by
  intro name net
  refine ⟨?_, ?_, ?_, ?_, ?_, ?_⟩
  · intro h
    simp [fetchLatestVersion, h]
  · intro h
    subst h
    by_cases ht : jsTrim name = "" <;> simp [fetchLatestVersion, ht]
  · intro v h
    subst h
    by_cases ht : jsTrim name = "" <;> simp [fetchLatestVersion, ht]
  · intro ok h
    subst h
    by_cases ht : jsTrim name = "" <;> simp [fetchLatestVersion, ht]
  · intro raw
    rfl
  · intro d
    exact ⟨rfl, by simp⟩

theorem resolver_failure_paths_return_null_witness :
    fetchLatestVersion "   " NetworkOutcome.throws = Option.none :=
  (resolver_failure_paths_return_null "   " NetworkOutcome.throws).1 (by decide)

/-- C3 counterexample: with an empty project list, a single down event in
ProjectSelect mode sets the project cursor to
`Math.min(0 - 1, 0 + 1) = -1`, below the claimed lower bound 0 (the same
clamp produces `-1` for an empty dependency list). -/
theorem nav_down_on_empty_collection_underflows :
    (step emptyProjectState InputEvent.downArrow).selectedProjectIndex = -1 ∧
    (step emptyProjectState InputEvent.downArrow).selectedProjectIndex < 0 := by
  decide

/-- C3 amended: the cursor update of `handleNavigation` is the clamp
`navStep` applied to the respective collection (projects in ProjectSelect
mode, the current project's dependencies in DependencySelect mode), and
for every collection with at least one element, every sequence of up/down
events keeps the cursor within `[0, length-1]`; on an empty collection a
down event instead sets the cursor to -1. -/
theorem nav_clamped_on_nonempty_collections :
    (∀ (s : AppState) (d : NavDirection), s.mode = AppMode.project →
      (handleNavigation s d).selectedProjectIndex
        = navStep s.projects.length s.selectedProjectIndex d ∧
      (handleNavigation s d).selectedDepIndex = s.selectedDepIndex) ∧
    (∀ (s : AppState) (d : NavDirection) (p : ProjectInfo),
      s.mode = AppMode.dependencies → currentProject s = some p →
      (handleNavigation s d).selectedDepIndex
        = navStep p.dependencies.length s.selectedDepIndex d ∧
      (handleNavigation s d).selectedProjectIndex = s.selectedProjectIndex) ∧
    (∀ (len : Nat) (c : Int) (events : List NavDirection),
      1 ≤ len → 0 ≤ c → c ≤ (len : Int) - 1 →
      0 ≤ navRun len c events ∧ navRun len c events ≤ (len : Int) - 1) := by
  refine ⟨?_, ?_, ?_⟩
  · intro s d h
    constructor <;> simp [handleNavigation, h]
  · intro s d p hm hp
    constructor <;> simp [handleNavigation, hm, hp]
  · intro len c events hlen h0 h1
    exact navRun_bounds len hlen events c h0 h1

theorem nav_clamped_on_nonempty_collections_witness :
    0 ≤ navRun 1 0 [NavDirection.down, NavDirection.down, NavDirection.up] ∧
    navRun 1 0 [NavDirection.down, NavDirection.down, NavDirection.up] ≤ (1 : Int) - 1 :=
  nav_clamped_on_nonempty_collections.2.2 1 0
    [NavDirection.down, NavDirection.down, NavDirection.up]
    (by decide) (by decide) (by decide)

/-- C7 counterexample: a manifest containing the same declaration text
twice, one parsed entry selected and updatable, the other neither
selected nor updatable.  The global replacement rewrites both
occurrences, so the unselected, non-updatable declaration does not
appear byte-for-byte unchanged in the output (its text no longer occurs
at all), refuting the claim as universally stated. -/
theorem unselected_duplicate_declaration_rewritten :
    dupUnselected.selected = false ∧
    eligibleForRewrite dupUnselected = false ∧
    occursSub (quoteStr dupUnselected.originalConstraint).data dupManifest.data = true ∧
    updateDependenciesText dupManifest [dupSelected, dupUnselected]
      = "[\"a==1.1.0\", \"a==1.1.0\"]" ∧
    occursSub (quoteStr dupUnselected.originalConstraint).data
      (updateDependenciesText dupManifest [dupSelected, dupUnselected]).data = false := by
  decide

/-- C7 amended: rewriting with an empty selected set leaves the manifest
byte-identical; a dependency that is not eligible (not updatable, or with
a `null`/absent latest version) contributes no change at all; a
dependency whose quoted original constraint does not occur in the text
changes nothing (replacement happens only at exact quoted matches); and
in the two-extras scenario only the exactly matching declaration is
affected.  The unselected/non-updatable/non-registry frame clause holds
provided the declaration's text differs from every selected updatable
declaration's original constraint (the counterexample shows the
unqualified clause fails for duplicate texts). -/
theorem rewrite_frame_properties :
    (∀ (content : String) (deps : List Dependency),
      deps.filter (fun d => d.selected) = [] →
      updateDependenciesText content deps = content) ∧
    (∀ (content : String) (d : Dependency),
      eligibleForRewrite d = false → applyDepUpdate content d = content) ∧
    (∀ (content : String) (d : Dependency),
      occursSub (quoteStr d.originalConstraint).data content.data = false →
      applyDepUpdate content d = content) ∧
    updateDependenciesText extrasManifest [extrasDep] = extrasManifestExpected := by
  refine ⟨?_, ?_, ?_, by decide⟩
  · intro content deps h
    unfold updateDependenciesText
    rw [h]
    rfl
  · intro content d h
    exact applyDepUpdate_of_not_eligible content d h
  · intro content d h
    cases hl : d.latestVersion with
    | none => simp [applyDepUpdate, hl]
    | some lv =>
      cases lv with
      | none => simp [applyDepUpdate, hl]
      | some v =>
        by_cases hc : (!(v = "") && d.hasUpdate) = true
        · simp [applyDepUpdate, hl, hc, replaceAll_of_not_occurs _ _ _ h]
        · simp [applyDepUpdate, hl, hc]

theorem rewrite_frame_properties_witness :
    updateDependenciesText "name = \"demo\"" [dupUnselected] = "name = \"demo\"" :=
  rewrite_frame_properties.1 "name = \"demo\"" [dupUnselected] (by decide)

/-- C9 counterexample: in ProjectSelect mode the back-key (left arrow)
sets the mode to DependencySelect — a mode change by an event the §4.6
table does not list for that state, and one that bypasses the
dependency-cursor reset — refuting "the only state-changing events from
ProjectSelect are confirm-key and quit" and "no event not listed for a
state changes the mode". -/
theorem back_key_in_project_mode_changes_mode :
    oneProjectState.mode = AppMode.project ∧
    oneProjectState.terminated = false ∧
    (step oneProjectState InputEvent.leftArrow).mode = AppMode.dependencies ∧
    (step oneProjectState InputEvent.leftArrow).selectedDepIndex
      = oneProjectState.selectedDepIndex ∧
    (step oneProjectState InputEvent.leftArrow).terminated = false := by
  decide

/-- C9 amended: the transitions of the table hold — confirm-key from
ProjectSelect with a project at the (safe) cursor resets the dependency
cursor to 0 and enters DependencySelect, and does nothing without one;
reject-key or back-key from Confirm returns to DependencySelect; quit
from any state terminates the session without touching the written flag;
up/down in ProjectSelect only move the project cursor; and every event
not listed for a state leaves the state unchanged — except that,
additionally, back-key from ProjectSelect also enters DependencySelect
without resetting the dependency cursor. -/
theorem transition_table_amended :
    ∀ s : AppState, s.terminated = false →
      ((s.mode = AppMode.project → currentProject s ≠ Option.none →
        step s InputEvent.enter
          = { s with mode := AppMode.dependencies, selectedDepIndex := 0 }) ∧
      (s.mode = AppMode.project → currentProject s = Option.none →
        step s InputEvent.enter = s) ∧
      (s.mode = AppMode.project →
        step s InputEvent.leftArrow = { s with mode := AppMode.dependencies }) ∧
      (s.mode = AppMode.project → ∀ e : InputEvent,
        e = InputEvent.space ∨ e = InputEvent.charY ∨ e = InputEvent.charN ∨
          e = InputEvent.other →
        step s e = s) ∧
      (s.mode = AppMode.project → ∀ d : NavDirection,
        (handleNavigation s d).mode = AppMode.project ∧
        (handleNavigation s d).selectedDepIndex = s.selectedDepIndex) ∧
      (s.mode = AppMode.confirm →
        step s InputEvent.charN = { s with mode := AppMode.dependencies } ∧
        step s InputEvent.leftArrow = { s with mode := AppMode.dependencies }) ∧
      (s.mode = AppMode.confirm → ∀ e : InputEvent,
        e = InputEvent.upArrow ∨ e = InputEvent.downArrow ∨ e = InputEvent.space ∨
          e = InputEvent.enter ∨ e = InputEvent.other →
        step s e = s) ∧
      (s.mode = AppMode.dependencies → ∀ e : InputEvent,
        e = InputEvent.charY ∨ e = InputEvent.charN ∨ e = InputEvent.other →
        step s e = s) ∧
      (step s InputEvent.quitKey = { s with terminated := true } ∧
        (step s InputEvent.quitKey).fileWritten = s.fileWritten)) := by
  intro s hterm
  refine ⟨?_, ?_, ?_, ?_, ?_, ?_, ?_, ?_, ?_⟩
  · intro hm hp
    cases hcp : currentProject s with
    | none => exact absurd hcp hp
    | some p => simp [step, hterm, hm, hcp]
  · intro hm hcp
    simp [step, hterm, hm, hcp]
  · intro hm
    simp [step, hterm, hm]
  · intro hm e he
    rcases he with rfl | rfl | rfl | rfl <;> simp [step, hterm, hm]
  · intro hm d
    constructor <;> simp [handleNavigation, hm]
  · intro hm
    constructor <;> simp [step, hterm, hm]
  · intro hm e he
    rcases he with rfl | rfl | rfl | rfl | rfl <;>
      simp [step, hterm, hm, handleNavigation]
  · intro hm e he
    rcases he with rfl | rfl | rfl <;> simp [step, hterm, hm]
  · exact ⟨by simp [step, hterm], by simp [step, hterm]⟩

theorem transition_table_amended_witness :
    step oneProjectState InputEvent.enter
      = { oneProjectState with mode := AppMode.dependencies, selectedDepIndex := 0 } :=
  (transition_table_amended oneProjectState rfl).1 rfl (by decide)

/-- C10: when some dependency of the current project is selected but no
selected dependency is eligible (non-null latest version together with
`hasUpdate`), accepting in Confirm does not short-circuit: the rewrite
loop leaves the text untouched, so the manifest is written back
byte-identical to what was read, and the success message reports every
selected dependency as updated. -/
theorem noop_selection_writes_identical_content :
    ∀ (content : String) (deps : List Dependency),
      deps.filter (fun d => d.selected) ≠ [] →
      (∀ d ∈ deps.filter (fun d => d.selected), eligibleForRewrite d = false) →
      updateDependenciesRun content deps =
        UpdateOutcome.wrote content (deps.filter (fun d => d.selected)).length := by
  intro content deps hne hel
  unfold updateDependenciesRun
  have hlen : ¬(deps.filter (fun d => d.selected)).length = 0 := by
    simpa [List.length_eq_zero] using hne
  rw [if_neg hlen, foldl_applyDepUpdate_id _ _ hel]

theorem noop_selection_writes_identical_content_witness :
    updateDependenciesRun "content" [selectedNotFound]
      = UpdateOutcome.wrote "content" 1 :=
  noop_selection_writes_identical_content "content" [selectedNotFound]
    (by decide) (by decide)

end UvUp
